import Mathlib

set_option autoImplicit false

/-!
Shallow embedding of the musicplayer repository core:
the playback engine in src/src/player.rs and the playlist
navigation logic in src/src/gui.rs, together with theorems
checking the specification claims against these definitions.
-/

namespace MusicPlayerSpec

/-!
## The decoder/output sink collaborator (rodio Sink)

The sink is external to the repository.  We model exactly the
observations and commands player.rs uses: emptiness of the queue,
the pause flag, and the operations stop (empties the queue),
append (enqueues audio), play (unpauses) and pause (pauses).
-/

structure SinkState where
  sinkEmpty : Bool
  sinkPaused : Bool
deriving Repr, DecidableEq

def SinkState.stop (s : SinkState) : SinkState :=
  { s with sinkEmpty := true }

def SinkState.appendSource (s : SinkState) : SinkState :=
  { s with sinkEmpty := false }

def SinkState.play (s : SinkState) : SinkState :=
  { s with sinkPaused := false }

def SinkState.pause (s : SinkState) : SinkState :=
  { s with sinkPaused := true }

/-!
## The playback engine: struct MusicPlayer (src/src/player.rs)

Track references (PathBuf) are an opaque type parameter.
Durations are modeled as Nat.  File opening and decoding
(File::open followed by Decoder::new) is modeled by an oracle
decode : track -> Option (Option Nat):
none models an open/decode failure, some d models success where
d is the total duration reported by the decoder (itself optional).
Wall-clock time (last_position_update) is not modeled; no claim
depends on it.  Mutex locks are modeled as always succeeding,
which is the sequential (single-thread) behavior of the code.
-/

structure MusicPlayer (τ : Type) where
  sink : SinkState
  current_song_index : Option Nat
  is_song_finished : Bool
  current_file_path : Option τ
  song_duration : Option Nat
  play_position : Nat
deriving Repr, DecidableEq

/-- MusicPlayer::new (player.rs lines 27-42): a fresh sink has an empty
queue and is not paused; all tracked state starts at its default. -/
def MusicPlayer.new {τ : Type} : MusicPlayer τ :=
  { sink := { sinkEmpty := true, sinkPaused := false }
    current_song_index := none
    is_song_finished := false
    current_file_path := none
    song_duration := none
    play_position := 0 }

/-- MusicPlayer::play_file (player.rs lines 44-76).  Returns the post
state together with true on Ok and false on Err (open/decode failure).
The sink is stopped, the file path stored and the position reset
before the open is attempted, so those mutations survive a failure. -/
def MusicPlayer.play_file {τ : Type} (p : MusicPlayer τ)
    (decode : τ → Option (Option Nat)) (path : τ) :
    MusicPlayer τ × Bool :=
  let p1 := { p with
    sink := p.sink.stop
    current_file_path := some path
    play_position := 0 }
  match decode path with
  | none => (p1, false)
  | some dur =>
    let p2 := { p1 with song_duration := dur }
    ({ p2 with sink := p2.sink.appendSource.play }, true)

/-- MusicPlayer::play_playlist_item (player.rs lines 78-97): records the
index and clears the finished flag, then delegates to play_file. -/
def MusicPlayer.play_playlist_item {τ : Type} (p : MusicPlayer τ)
    (decode : τ → Option (Option Nat)) (path : τ) (index : Nat) :
    MusicPlayer τ × Bool :=
  let p1 := { p with
    current_song_index := some index
    is_song_finished := false }
  p1.play_file decode path

/-- MusicPlayer::check_if_song_finished (player.rs lines 99-120).
Returns the post state (the sticky flag may be set as a side effect)
together with the returned Bool. -/
def MusicPlayer.check_if_song_finished {τ : Type} (p : MusicPlayer τ) :
    MusicPlayer τ × Bool :=
  let song_completed := p.sink.sinkEmpty && !p.sink.sinkPaused
  let p1 := if song_completed then { p with is_song_finished := true } else p
  (p1, p1.is_song_finished)

/-- MusicPlayer::pause (player.rs lines 131-133). -/
def MusicPlayer.pause {τ : Type} (p : MusicPlayer τ) : MusicPlayer τ :=
  { p with sink := p.sink.pause }

/-- MusicPlayer::resume (player.rs lines 135-137). -/
def MusicPlayer.resume {τ : Type} (p : MusicPlayer τ) : MusicPlayer τ :=
  { p with sink := p.sink.play }

/-- MusicPlayer::stop (player.rs lines 139-146). -/
def MusicPlayer.stop {τ : Type} (p : MusicPlayer τ) : MusicPlayer τ :=
  { p with sink := p.sink.stop, is_song_finished := true }

/-- MusicPlayer::is_playing (player.rs lines 148-166). -/
def MusicPlayer.is_playing {τ : Type} (p : MusicPlayer τ) : Bool :=
  !p.sink.sinkPaused && !p.sink.sinkEmpty && !p.is_song_finished

/-- The distinct error returns of MusicPlayer::seek_to. -/
inductive SeekErr where
  | noActiveTrack
  | noIndex
  | openFail
deriving Repr, DecidableEq

/-- MusicPlayer::seek_to (player.rs lines 210-262).  Returns the post
state and none on Ok, or some error.  The two precondition failures
(no file path recorded, no song index set) happen before any mutation;
the new position is stored before the stream is reloaded, so it
survives a reload failure.  Playback is restarted only if the sink was
not paused before the seek. -/
def MusicPlayer.seek_to {τ : Type} (p : MusicPlayer τ)
    (decode : τ → Option (Option Nat)) (position : Nat) :
    MusicPlayer τ × Option SeekErr :=
  match p.current_file_path with
  | none => (p, some SeekErr.noActiveTrack)
  | some path =>
    match p.current_song_index with
    | none => (p, some SeekErr.noIndex)
    | some _ =>
      let p1 := { p with play_position := position }
      let was_paused := p1.sink.sinkPaused
      let p2 := { p1 with sink := p1.sink.stop }
      match decode path with
      | none => (p2, some SeekErr.openFail)
      | some _ =>
        let p3 := { p2 with sink := p2.sink.appendSource }
        let p4 := if !was_paused then { p3 with sink := p3.sink.play } else p3
        (p4, none)

/-!
## The playlist navigator: struct MusicPlayerApp (src/src/gui.rs)

Track references are again an opaque type parameter.  Only the state
the playlist logic reads and writes is modeled: the playlist, the
current playlist index, the UI selected index, the shuffle flag, the
is_playing flag and the current file.  The calls into the engine
(player.lock() followed by play_playlist_item or stop) do not feed
back into this state beyond the modeled is_playing updates, so they
are not part of the navigator model.

Randomness: rng.random_range(0..len) is modeled by consuming one entry
d from an ambient tape of naturals and reducing it modulo len, which
realizes exactly the draws in the half-open range.  The rejection loop
in play_next_song can in principle redraw forever; a run of the loop
is therefore modeled against a finite tape, with none denoting a run
in which the loop has not yet returned when the tape is exhausted.

Panics: Vec::swap with an out-of-range index panics, and
self.playlist.len() - 1 underflows on an empty playlist (a panic in a
debug build, usize wraparound followed by the out-of-range swap panic
in a release build).  A panicking run is modeled as none.
-/

structure App (α : Type) where
  playlist : List α
  current_playlist_index : Option Nat
  selected_song_index : Option Nat
  shuffle_mode : Bool
  is_playing : Bool
  current_file : Option α
deriving Repr, DecidableEq

/-- The app state as constructed with no command-line files
(MusicPlayerApp::new, gui.rs lines 31-69, with an empty path list). -/
def initialApp {α : Type} : App α :=
  { playlist := []
    current_playlist_index := none
    selected_song_index := none
    shuffle_mode := false
    is_playing := false
    current_file := none }

/-- currentItem: the bounds-checked lookup of the current playlist
index, as performed by play_current_song and the playlist rendering
(and by current_item in tests/playlist_tests.rs). -/
def currentItem {α : Type} (app : App α) : Option α :=
  match app.current_playlist_index with
  | none => none
  | some i => app.playlist[i]?

/-- MusicPlayerApp::play_current_song (gui.rs lines 71-82): if the
current index is set and in bounds, record the file and start playing
(the engine call itself is outside the navigator model). -/
def play_current_song {α : Type} (app : App α) : App α :=
  match app.current_playlist_index with
  | none => app
  | some index =>
    if index < app.playlist.length then
      { app with current_file := app.playlist[index]?, is_playing := true }
    else app

/-- Rust usize::MAX, the sentinel current.unwrap_or(usize::MAX) used
by the shuffle rejection loop in play_next_song. -/
def USIZE_MAX : Nat := 2 ^ 64 - 1

/-- The rejection loop of play_next_song (gui.rs lines 89-94):
while r equals the sentinel, draw d from the tape and replace r by
d % len (the model of rng.random_range(0..len)).  Returns none when
the tape is exhausted before the loop has returned. -/
def rejectionLoop (sentinel len : Nat) : Nat → List Nat → Option Nat
  | r, tape =>
    if r = sentinel then
      match tape with
      | [] => none
      | d :: rest => rejectionLoop sentinel len (d % len) rest
    else some r

/-- The next-index selection of MusicPlayerApp::play_next_song
(gui.rs lines 85-112), covering both the shuffle and the sequential
branch.  The outer Option is none when the rejection loop exhausted
the tape; the inner Option is the selected index (none = end of
playlist or empty playlist). -/
def play_next_index {α : Type} (shuffle : Bool) (playlist : List α)
    (current : Option Nat) (tape : List Nat) : Option (Option Nat) :=
  if shuffle = true ∧ playlist.length ≠ 0 then
    if 1 < playlist.length then
      match rejectionLoop (current.getD USIZE_MAX) playlist.length
          (current.getD 0) tape with
      | none => none
      | some r => some (some r)
    else
      some (some 0)
  else
    match current with
    | some c =>
      if c + 1 < playlist.length then some (some (c + 1)) else some none
    | none =>
      if playlist.length ≠ 0 then some (some 0) else some none

/-- MusicPlayerApp::play_next_song (gui.rs lines 84-120): select the
next index, store it, and either play the newly current song or mark
playback stopped. -/
def play_next_song {α : Type} (app : App α) (tape : List Nat) :
    Option (App α) :=
  match play_next_index app.shuffle_mode app.playlist
      app.current_playlist_index tape with
  | none => none
  | some next =>
    match next with
    | some i =>
      some (play_current_song
        { app with current_playlist_index := some i })
    | none =>
      some { app with current_playlist_index := none, is_playing := false }

/-- MusicPlayerApp::add_to_playlist (gui.rs lines 122-145), with the
file dialog modeled as returning the given list of (audio) files:
push them all, then if something was added while no song was current,
select index 0 and play it.  handle_dropped_files (lines 298-332)
updates the playlist and current index the same way. -/
def add_to_playlist {α : Type} (app : App α) (tracks : List α) : App α :=
  let app1 := { app with playlist := app.playlist ++ tracks }
  if tracks.length ≠ 0 ∧ app1.current_playlist_index = none ∧ app1.playlist.length ≠ 0 then
    play_current_song { app1 with current_playlist_index := some 0 }
  else
    app1

/-- MusicPlayerApp::remove_from_playlist (gui.rs lines 147-200):
remove the selected item, stopping playback if it was current,
adjusting the current index by the rule at lines 158-180, and moving
the selection to the item sliding into the removed slot (or the new
last item, or clearing it). -/
def remove_from_playlist {α : Type} (app : App α) : App α :=
  match app.selected_song_index with
  | none => app
  | some index =>
    if index < app.playlist.length then
      let is_playing1 :=
        if some index = app.current_playlist_index then false else app.is_playing
      let current1 :=
        match app.current_playlist_index with
        | none => none
        | some c =>
          if c = index then
            if 0 < c then some (c - 1)
            else if 1 < app.playlist.length then some 0
            else none
          else if index < c then some (c - 1)
          else some c
      let playlist1 := app.playlist.eraseIdx index
      let selected1 :=
        if playlist1.length ≠ 0 then
          if index < playlist1.length then some index
          else some (playlist1.length - 1)
        else none
      { app with
        playlist := playlist1
        current_playlist_index := current1
        selected_song_index := selected1
        is_playing := is_playing1 }
    else app

/-- Vec::swap on a list; call sites below only ever pass in-range
indices (out-of-range calls are modeled as panics before reaching
this function), so the identity fallback is never exercised. -/
def listSwap {α : Type} (l : List α) (i j : Nat) : List α :=
  match l[i]?, l[j]? with
  | some a, some b => (l.set i b).set j a
  | _, _ => l

/-- MusicPlayerApp::move_up_in_playlist (gui.rs lines 202-217): if an
item other than the first is selected, swap it with its predecessor
and update current index and selection to follow the move. -/
def move_up_in_playlist {α : Type} (app : App α) : App α :=
  match app.selected_song_index with
  | none => app
  | some index =>
    if 0 < index ∧ index < app.playlist.length then
      let current1 :=
        match app.current_playlist_index with
        | none => none
        | some c =>
          if c = index then some (c - 1)
          else if c = index - 1 then some (c + 1)
          else some c
      { app with
        playlist := listSwap app.playlist index (index - 1)
        current_playlist_index := current1
        selected_song_index := some (index - 1) }
    else app

/-- MusicPlayerApp::move_down_in_playlist (gui.rs lines 219-234).
The guard index < self.playlist.len() - 1 underflows when the
playlist is empty, and the subsequent swap(index, index + 1) is then
out of range: with a selected index on an empty playlist the method
panics (none).  Otherwise, if a non-last item is selected, swap it
with its successor and update current index and selection. -/
def move_down_in_playlist {α : Type} (app : App α) : Option (App α) :=
  match app.selected_song_index with
  | none => some app
  | some index =>
    if app.playlist.length = 0 then none
    else if index < app.playlist.length - 1 then
      let current1 :=
        match app.current_playlist_index with
        | none => none
        | some c =>
          if c = index then some (c + 1)
          else if c = index + 1 then some (c - 1)
          else some c
      some { app with
        playlist := listSwap app.playlist index (index + 1)
        current_playlist_index := current1
        selected_song_index := some (index + 1) }
    else some app

/-- Clicking a playlist row (gui.rs lines 448-464): rows exist only
for indices below the playlist length, and a click selects the row. -/
def click_row {α : Type} (app : App α) (i : Nat) : App α :=
  if i < app.playlist.length then
    { app with selected_song_index := some i }
  else app

/-- Double-clicking a playlist row (gui.rs lines 466-470): make the
row current and record its file (started_playing then triggers
playback in update, leaving these indices unchanged since the current
index is set). -/
def double_click_row {α : Type} (app : App α) (i : Nat) : App α :=
  if i < app.playlist.length then
    { app with
      current_playlist_index := some i
      current_file := app.playlist[i]? }
  else app

/-- The navigator operations reachable from the UI. -/
inductive Op (α : Type) where
  | addSongs (tracks : List α)
  | removeSelected
  | moveUp
  | moveDown
  | next (tape : List Nat)
  | toggleShuffle
  | clickRow (i : Nat)
  | doubleClickRow (i : Nat)

/-- One UI operation applied to the app state; none is a panicking or
never-returning run. -/
def applyOp {α : Type} (app : App α) : Op α → Option (App α)
  | Op.addSongs tracks => some (add_to_playlist app tracks)
  | Op.removeSelected => some (remove_from_playlist app)
  | Op.moveUp => some (move_up_in_playlist app)
  | Op.moveDown => move_down_in_playlist app
  | Op.next tape => play_next_song app tape
  | Op.toggleShuffle => some { app with shuffle_mode := !app.shuffle_mode }
  | Op.clickRow i => some (click_row app i)
  | Op.doubleClickRow i => some (double_click_row app i)

/-- A sequence of UI operations applied in order. -/
def runOps {α : Type} (app : App α) : List (Op α) → Option (App α)
  | [] => some app
  | op :: ops =>
    match applyOp app op with
    | none => none
    | some app1 => runOps app1 ops

/-- The current-index validity invariant of the navigator: the current
playlist index is unset or in bounds. -/
def IndexInv {α : Type} (app : App α) : Prop :=
  ∀ c, app.current_playlist_index = some c → c < app.playlist.length

/-- Sequential-mode next-index selection (the non-shuffle branch of
play_next_song, gui.rs lines 101-111), as a function of the playlist
length and the current index. -/
def seqNext (len : Nat) (current : Option Nat) : Option Nat :=
  match current with
  | some c => if c + 1 < len then some (c + 1) else none
  | none => if len ≠ 0 then some 0 else none

/-- k-fold iteration of play_next_song (with an irrelevant empty tape,
never consulted in sequential mode). -/
def playNextIter {α : Type} (app : App α) : Nat → Option (App α)
  | 0 => some app
  | k + 1 =>
    match playNextIter app k with
    | none => none
    | some a => play_next_song a []

/-- k-fold iteration of seqNext from a starting index, mirroring
playNextIter at the index level. -/
def seqIterFrom (len : Nat) (cur : Option Nat) : Nat → Option Nat
  | 0 => cur
  | k + 1 => seqNext len (seqIterFrom len cur k)

/-!
## Helper lemmas
-/

theorem rejectionLoop_of_ne (sentinel len r0 : Nat) (tape : List Nat)
    (h : r0 ≠ sentinel) : rejectionLoop sentinel len r0 tape = some r0 := by
  unfold rejectionLoop
  simp [h]

theorem rejectionLoop_sound (sentinel len : Nat) (hlen : 0 < len)
    (tape : List Nat) :
    ∀ r0 r : Nat, rejectionLoop sentinel len r0 tape = some r →
      r ≠ sentinel ∧ (r = r0 ∨ r < len) := by
  induction tape with
  | nil =>
    intro r0 r h
    unfold rejectionLoop at h
    by_cases hr : r0 = sentinel
    · rw [if_pos hr] at h
      exact absurd h (by simp)
    · rw [if_neg hr] at h
      injection h with h2
      subst h2
      exact ⟨hr, Or.inl rfl⟩
  | cons d rest ih =>
    intro r0 r h
    unfold rejectionLoop at h
    by_cases hr : r0 = sentinel
    · rw [if_pos hr] at h
      have h2 := ih (d % len) r h
      exact ⟨h2.1, Or.inr (h2.2.elim (fun he => he ▸ Nat.mod_lt d hlen) id)⟩
    · rw [if_neg hr] at h
      injection h with h2
      subst h2
      exact ⟨hr, Or.inl rfl⟩

theorem listSwap_spec {α : Type} (l : List α) (i j : Nat)
    (hi : i < l.length) (hj : j < l.length) :
    (listSwap l i j).length = l.length ∧
    (listSwap l i j)[i]? = l[j]? ∧
    (listSwap l i j)[j]? = l[i]? ∧
    (∀ k, k ≠ i → k ≠ j → (listSwap l i j)[k]? = l[k]?) := by
  have ha := List.getElem?_eq_getElem hi
  have hb := List.getElem?_eq_getElem hj
  unfold listSwap
  simp only [ha, hb]
  refine ⟨by simp, ?_, ?_, ?_⟩
  · by_cases hij : i = j
    · subst hij
      rw [List.getElem?_set_self (by simpa using hi)]
    · rw [List.getElem?_set_ne (fun he => hij he.symm),
        List.getElem?_set_self hi]
  · rw [List.getElem?_set_self (by simpa using hj)]
  · intro k hki hkj
    rw [List.getElem?_set_ne (fun he => hkj he.symm),
      List.getElem?_set_ne (fun he => hki he.symm)]

theorem play_current_song_fields {α : Type} (app : App α) :
    (play_current_song app).playlist = app.playlist ∧
    (play_current_song app).current_playlist_index = app.current_playlist_index ∧
    (play_current_song app).selected_song_index = app.selected_song_index ∧
    (play_current_song app).shuffle_mode = app.shuffle_mode := by
  unfold play_current_song
  cases hcur : app.current_playlist_index with
  | none => simp [hcur]
  | some index =>
    by_cases hidx : index < app.playlist.length <;> simp [hidx, hcur]

theorem play_next_index_in_range {α : Type} (sh : Bool) (pl : List α)
    (cur : Option Nat) (tape : List Nat) (i : Nat)
    (h : play_next_index sh pl cur tape = some (some i)) : i < pl.length := by
  unfold play_next_index at h
  by_cases hcond : sh = true ∧ pl.length ≠ 0
  · rw [if_pos hcond] at h
    by_cases hlen : 1 < pl.length
    · rw [if_pos hlen] at h
      cases hrl : rejectionLoop (cur.getD USIZE_MAX) pl.length (cur.getD 0) tape with
      | none => rw [hrl] at h; exact absurd h (by simp)
      | some r =>
        rw [hrl] at h
        have hri : r = i := by simpa using h
        have h0 : 0 < pl.length := Nat.lt_of_lt_of_le Nat.one_pos (Nat.le_of_lt hlen)
        have hs := rejectionLoop_sound (cur.getD USIZE_MAX) pl.length h0 tape
          (cur.getD 0) r hrl
        have hr : r < pl.length := by
          cases cur with
          | none =>
            rcases hs.2 with he | hlt
            · simp only [Option.getD_none] at he
              omega
            · exact hlt
          | some c =>
            rcases hs.2 with he | hlt
            · exfalso
              apply hs.1
              simp only [Option.getD_some] at he ⊢
              exact he
            · exact hlt
        exact hri ▸ hr
    · rw [if_neg hlen] at h
      have h0 : i = 0 := by simpa using h.symm
      have hpos : 0 < pl.length := Nat.pos_of_ne_zero hcond.2
      omega
  · rw [if_neg hcond] at h
    cases cur with
    | some c =>
      by_cases hc : c + 1 < pl.length
      · simp [hc] at h
        omega
      · simp [hc] at h
    | none =>
      by_cases hc : pl.length ≠ 0
      · simp [hc] at h
        omega
      · simp [hc] at h

/-- Claim C2, counterexample: spec maps playTrack to play_file
(playAtIndex delegates to it), and play_file does NOT clear the
finished flag.  Starting from a state whose finished flag is true, a
successful play_file leaves the flag true. -/
theorem C2_play_file_keeps_finished_flag :
    ((⟨⟨true, false⟩, some 0, true, some 3, some 9, 5⟩ : MusicPlayer Nat).play_file
        (fun _ => some (some 100)) 7).2 = true ∧
    ((⟨⟨true, false⟩, some 0, true, some 3, some 9, 5⟩ : MusicPlayer Nat).play_file
        (fun _ => some (some 100)) 7).1.is_song_finished = true := by
  exact ⟨rfl, rfl⟩

/-- Claim C2 as amended (corrected): a successful play_playlist_item
call (the outer play-at-index entry point) leaves the finished flag
cleared and the position reset to zero; play_file alone resets the
position to zero but leaves the finished flag unchanged, so the
clearing happens only in play_playlist_item. -/
theorem C2_play_clears_finished_and_resets_position {τ : Type}
    (p : MusicPlayer τ) (decode : τ → Option (Option Nat)) (path : τ) (index : Nat)
    (_hsucc : (p.play_playlist_item decode path index).2 = true) :
    (p.play_playlist_item decode path index).1.is_song_finished = false ∧
    (p.play_playlist_item decode path index).1.play_position = 0 ∧
    (p.play_file decode path).1.play_position = 0 ∧
    (p.play_file decode path).1.is_song_finished = p.is_song_finished := by
  unfold MusicPlayer.play_playlist_item MusicPlayer.play_file
  cases decode path <;> simp_all

/-- Witness for the amended C2 at a concrete engine state and decoder. -/
theorem C2_play_clears_finished_and_resets_position_witness :
    ((⟨⟨true, false⟩, none, true, none, none, 5⟩ : MusicPlayer Nat).play_playlist_item
        (fun _ => some none) 7 2).1.is_song_finished = false ∧
    ((⟨⟨true, false⟩, none, true, none, none, 5⟩ : MusicPlayer Nat).play_playlist_item
        (fun _ => some none) 7 2).1.play_position = 0 ∧
    ((⟨⟨true, false⟩, none, true, none, none, 5⟩ : MusicPlayer Nat).play_file
        (fun _ => some none) 7).1.play_position = 0 ∧
    ((⟨⟨true, false⟩, none, true, none, none, 5⟩ : MusicPlayer Nat).play_file
        (fun _ => some none) 7).1.is_song_finished =
      (⟨⟨true, false⟩, none, true, none, none, 5⟩ : MusicPlayer Nat).is_song_finished :=
  C2_play_clears_finished_and_resets_position
    (⟨⟨true, false⟩, none, true, none, none, 5⟩ : MusicPlayer Nat)
    (fun _ => some none) 7 2 rfl

/-- Claim C4, counterexample: when play_file fails to open the track,
the engine state is NOT left unchanged: the loaded-track reference
already points at the unopenable track and the position was reset to
zero.  Concretely, a state playing track 1 at position 42 that calls
play_file on the unopenable track 2 ends with its file reference on
track 2 and position 0. -/
theorem C4_failed_open_mutates_state :
    ((⟨⟨false, false⟩, some 0, false, some 1, some 100, 42⟩ : MusicPlayer Nat).play_file
        (fun t => if t = 2 then none else some (some 100)) 2).2 = false ∧
    ((⟨⟨false, false⟩, some 0, false, some 1, some 100, 42⟩ : MusicPlayer Nat).play_file
        (fun t => if t = 2 then none else some (some 100)) 2).1.current_file_path = some 2 ∧
    ((⟨⟨false, false⟩, some 0, false, some 1, some 100, 42⟩ : MusicPlayer Nat).play_file
        (fun t => if t = 2 then none else some (some 100)) 2).1.play_position = 0 ∧
    (⟨⟨false, false⟩, some 0, false, some 1, some 100, 42⟩ : MusicPlayer Nat).play_position
      = 42 := by
  refine ⟨?_, ?_, ?_, rfl⟩ <;> decide

/-- Claim C4 as amended (corrected): when play_file fails with an open
or decode error, the sink is stopped (nothing is playing, is_playing
reports false) and the duration, finished flag and song index are
unchanged, but the loaded-track reference is set to the failed track
and the position is reset to zero. -/
theorem C4_failed_open_leaves_engine_stopped {τ : Type}
    (p : MusicPlayer τ) (decode : τ → Option (Option Nat)) (path : τ)
    (hfail : (p.play_file decode path).2 = false) :
    (p.play_file decode path).1.sink.sinkEmpty = true ∧
    (p.play_file decode path).1.is_playing = false ∧
    (p.play_file decode path).1.song_duration = p.song_duration ∧
    (p.play_file decode path).1.is_song_finished = p.is_song_finished ∧
    (p.play_file decode path).1.current_song_index = p.current_song_index ∧
    (p.play_file decode path).1.current_file_path = some path ∧
    (p.play_file decode path).1.play_position = 0 := by
  cases hd : decode path <;>
    simp_all [MusicPlayer.play_file, hd, MusicPlayer.is_playing, SinkState.stop,
      SinkState.appendSource, SinkState.play]

/-- Witness for the amended C4 at a concrete engine state and decoder. -/
theorem C4_failed_open_leaves_engine_stopped_witness :
    ((⟨⟨false, true⟩, some 4, true, some 1, some 100, 42⟩ : MusicPlayer Nat).play_file
        (fun _ => none) 2).1.sink.sinkEmpty = true ∧
    ((⟨⟨false, true⟩, some 4, true, some 1, some 100, 42⟩ : MusicPlayer Nat).play_file
        (fun _ => none) 2).1.is_playing = false ∧
    ((⟨⟨false, true⟩, some 4, true, some 1, some 100, 42⟩ : MusicPlayer Nat).play_file
        (fun _ => none) 2).1.song_duration = some 100 ∧
    ((⟨⟨false, true⟩, some 4, true, some 1, some 100, 42⟩ : MusicPlayer Nat).play_file
        (fun _ => none) 2).1.is_song_finished = true ∧
    ((⟨⟨false, true⟩, some 4, true, some 1, some 100, 42⟩ : MusicPlayer Nat).play_file
        (fun _ => none) 2).1.current_song_index = some 4 ∧
    ((⟨⟨false, true⟩, some 4, true, some 1, some 100, 42⟩ : MusicPlayer Nat).play_file
        (fun _ => none) 2).1.current_file_path = some 2 ∧
    ((⟨⟨false, true⟩, some 4, true, some 1, some 100, 42⟩ : MusicPlayer Nat).play_file
        (fun _ => none) 2).1.play_position = 0 :=
  C4_failed_open_leaves_engine_stopped
    (⟨⟨false, true⟩, some 4, true, some 1, some 100, 42⟩ : MusicPlayer Nat)
    (fun _ => none) 2 rfl

/-- Claim C10 (confirmed): on a freshly constructed engine on which no
track was ever loaded, check_if_song_finished returns true (the sink is
empty and not paused), as a side effect sets the sticky finished flag,
and is_playing returns false. -/
theorem C10_fresh_engine_reports_finished :
    ((MusicPlayer.new : MusicPlayer Nat).check_if_song_finished).2 = true ∧
    ((MusicPlayer.new : MusicPlayer Nat).check_if_song_finished).1.is_song_finished = true ∧
    (MusicPlayer.new : MusicPlayer Nat).is_playing = false := by
  decide

/-- Claim C1, counterexample: removing the current item at index 1 of
[10, 20, 30] does NOT leave the current index at 1 pointing at the old
element 30; the code moves the current index to 0, so currentItem is
10, the element originally before the removed one. -/
theorem C1_remove_current_moves_to_previous :
    (remove_from_playlist
        (⟨[10, 20, 30], some 1, some 1, false, true, none⟩ : App Nat)).current_playlist_index
      = some 0 ∧
    (remove_from_playlist
        (⟨[10, 20, 30], some 1, some 1, false, true, none⟩ : App Nat)).current_playlist_index
      ≠ some 1 ∧
    currentItem (remove_from_playlist
        (⟨[10, 20, 30], some 1, some 1, false, true, none⟩ : App Nat)) = some 10 ∧
    currentItem (remove_from_playlist
        (⟨[10, 20, 30], some 1, some 1, false, true, none⟩ : App Nat))
      ≠ ([10, 20, 30] : List Nat)[2]? := by
  decide

/-- Claim C1 as amended (corrected): the remove-current auto-advance
effect exists only when the current index is 0.  Removing the current
item at index 0 of a longer playlist keeps the index at 0, which then
denotes the originally following track; removing the current item at
any index c > 0 moves the current index to c - 1, which denotes the
originally preceding track. -/
theorem C1_remove_current_index_rule {α : Type} (app : App α) (c : Nat)
    (hsel : app.selected_song_index = some c)
    (hcur : app.current_playlist_index = some c)
    (hc : c < app.playlist.length) :
    (c = 0 → 1 < app.playlist.length →
      (remove_from_playlist app).current_playlist_index = some 0 ∧
      currentItem (remove_from_playlist app) = app.playlist[1]?) ∧
    (0 < c →
      (remove_from_playlist app).current_playlist_index = some (c - 1) ∧
      currentItem (remove_from_playlist app) = app.playlist[c - 1]?) := by
  constructor
  · intro hc0 hlen
    subst hc0
    have hpl := List.getElem?_eraseIdx_of_ge app.playlist 0 0 (Nat.le_refl 0)
    simp [remove_from_playlist, currentItem, hsel, hcur, hc, hlen, hpl]
  · intro hcpos
    have hpl := List.getElem?_eraseIdx_of_lt app.playlist c (c - 1) (by omega)
    simp [remove_from_playlist, currentItem, hsel, hcur, hc, hcpos, hpl]

/-- Witness for the amended C1 on the playlist [10, 20, 30]: removing
the current item at index 2 moves the current index to 1, and at index
0 of [10, 20, 30] keeps it at 0 (auto-advance). -/
theorem C1_remove_current_index_rule_witness :
    ((remove_from_playlist
        (⟨[10, 20, 30], some 2, some 2, false, true, none⟩ : App Nat)).current_playlist_index
      = some 1 ∧
      currentItem (remove_from_playlist
        (⟨[10, 20, 30], some 2, some 2, false, true, none⟩ : App Nat))
        = ([10, 20, 30] : List Nat)[1]?) ∧
    ((remove_from_playlist
        (⟨[10, 20, 30], some 0, some 0, false, true, none⟩ : App Nat)).current_playlist_index
      = some 0 ∧
      currentItem (remove_from_playlist
        (⟨[10, 20, 30], some 0, some 0, false, true, none⟩ : App Nat))
        = ([10, 20, 30] : List Nat)[1]?) :=
  ⟨(C1_remove_current_index_rule
      (⟨[10, 20, 30], some 2, some 2, false, true, none⟩ : App Nat) 2
      rfl rfl (by decide)).2 (by decide),
   (C1_remove_current_index_rule
      (⟨[10, 20, 30], some 0, some 0, false, true, none⟩ : App Nat) 0
      rfl rfl (by decide)).1 rfl (by decide)⟩

/-- Claim C5 (confirmed): removing a non-current item below the
current index decrements the current index and currentItem still
denotes the same track; removing one above it leaves the current index
unchanged (and currentItem likewise); removing the only element unsets
the current index and currentItem becomes none. -/
theorem C5_remove_noncurrent_index_rule {α : Type} (app : App α) (c i : Nat)
    (hsel : app.selected_song_index = some i)
    (hcur : app.current_playlist_index = some c)
    (hc : c < app.playlist.length)
    (hi : i < app.playlist.length) :
    (i < c →
      (remove_from_playlist app).current_playlist_index = some (c - 1) ∧
      currentItem (remove_from_playlist app) = app.playlist[c]?) ∧
    (c < i →
      (remove_from_playlist app).current_playlist_index = some c ∧
      currentItem (remove_from_playlist app) = app.playlist[c]?) ∧
    (app.playlist.length = 1 → i = 0 → c = 0 →
      (remove_from_playlist app).current_playlist_index = none ∧
      currentItem (remove_from_playlist app) = none) := by
  refine ⟨?_, ?_, ?_⟩
  · intro hic
    have hne : ¬(c = i) := by omega
    have hpl := List.getElem?_eraseIdx_of_ge app.playlist i (c - 1) (by omega)
    have hc1 : c - 1 + 1 = c := by omega
    rw [hc1] at hpl
    simp only [remove_from_playlist, currentItem, hsel, hcur]
    rw [if_pos hi]
    dsimp only
    rw [if_neg hne, if_pos hic]
    dsimp only
    exact ⟨rfl, hpl⟩
  · intro hci
    have hne : ¬(c = i) := by omega
    have hnlt : ¬(i < c) := by omega
    have hpl := List.getElem?_eraseIdx_of_lt app.playlist i c hci
    simp only [remove_from_playlist, currentItem, hsel, hcur]
    rw [if_pos hi]
    dsimp only
    rw [if_neg hne, if_neg hnlt]
    dsimp only
    exact ⟨rfl, hpl⟩
  · intro hlen hi0 hc0
    subst hi0
    subst hc0
    simp only [remove_from_playlist, currentItem, hsel, hcur]
    rw [if_pos hi]
    dsimp only
    have h1 : ¬(1 < app.playlist.length) := by omega
    simp [h1]

/-- Witness for C5 on the playlist [5, 6, 7] with current index 1:
removing index 0 gives current index 0 still denoting 6; removing
index 2 keeps current index 1 still denoting 6; and removing the only
element of [9] unsets the current index. -/
theorem C5_remove_noncurrent_index_rule_witness :
    ((remove_from_playlist
        (⟨[5, 6, 7], some 1, some 0, false, false, none⟩ : App Nat)).current_playlist_index
      = some 0 ∧
     currentItem (remove_from_playlist
        (⟨[5, 6, 7], some 1, some 0, false, false, none⟩ : App Nat))
      = ([5, 6, 7] : List Nat)[1]?) ∧
    ((remove_from_playlist
        (⟨[5, 6, 7], some 1, some 2, false, false, none⟩ : App Nat)).current_playlist_index
      = some 1 ∧
     currentItem (remove_from_playlist
        (⟨[5, 6, 7], some 1, some 2, false, false, none⟩ : App Nat))
      = ([5, 6, 7] : List Nat)[1]?) ∧
    ((remove_from_playlist
        (⟨[9], some 0, some 0, false, false, none⟩ : App Nat)).current_playlist_index
      = none ∧
     currentItem (remove_from_playlist
        (⟨[9], some 0, some 0, false, false, none⟩ : App Nat)) = none) :=
  ⟨(C5_remove_noncurrent_index_rule
      (⟨[5, 6, 7], some 1, some 0, false, false, none⟩ : App Nat) 1 0
      rfl rfl (by decide) (by decide)).1 (by decide),
   (C5_remove_noncurrent_index_rule
      (⟨[5, 6, 7], some 1, some 2, false, false, none⟩ : App Nat) 1 2
      rfl rfl (by decide) (by decide)).2.1 (by decide),
   (C5_remove_noncurrent_index_rule
      (⟨[9], some 0, some 0, false, false, none⟩ : App Nat) 0 0
      rfl rfl (by decide) (by decide)).2.2 rfl rfl rfl⟩

/-- Claim C6 (confirmed): in shuffle mode, on a playlist with more
than one element and a set current index c, whenever the rejection
loop returns at all (whatever the sequence of random draws on the
tape), the selected index is in range and different from c; on a
one-element playlist index 0 is selected regardless; on an empty
playlist the selection is unset. -/
theorem C6_shuffle_never_repeats_current {α : Type} (playlist : List α)
    (current : Option Nat) (tape : List Nat) :
    (∀ c r, current = some c → 1 < playlist.length →
      play_next_index true playlist current tape = some (some r) →
      r < playlist.length ∧ r ≠ c) ∧
    (playlist.length = 1 →
      play_next_index true playlist current tape = some (some 0)) ∧
    (playlist.length = 0 →
      play_next_index true playlist current tape = some none) := by
  refine ⟨?_, ?_, ?_⟩
  · intro c r hcur hlen h
    subst hcur
    refine ⟨play_next_index_in_range true playlist (some c) tape r h, ?_⟩
    unfold play_next_index at h
    rw [if_pos ⟨rfl, by omega⟩, if_pos hlen] at h
    cases hrl : rejectionLoop ((some c).getD USIZE_MAX) playlist.length
        ((some c).getD 0) tape with
    | none => rw [hrl] at h; exact absurd h (by simp)
    | some r0 =>
      rw [hrl] at h
      have hr0 : r0 = r := by simpa using h
      have hs := rejectionLoop_sound ((some c).getD USIZE_MAX) playlist.length
        (by omega) tape ((some c).getD 0) r0 hrl
      intro hrc
      exact hs.1 (by simp only [Option.getD_some]; omega)
  · intro hlen
    unfold play_next_index
    rw [if_pos ⟨rfl, by omega⟩, if_neg (by omega : ¬(1 < playlist.length))]
  · intro hlen
    unfold play_next_index
    rw [if_neg (by simp [hlen])]
    cases current with
    | some c =>
      simp [hlen]
    | none =>
      simp [hlen]

/-- Witness for C6: shuffle on [10, 20, 30] with current index 1 and
the tape [1, 3] draws 1 (rejected, equal to current) and then 0,
which is in range and distinct from 1; [10] selects 0; the empty
playlist selects none. -/
theorem C6_shuffle_never_repeats_current_witness :
    ((0 : Nat) < ([10, 20, 30] : List Nat).length ∧ (0 : Nat) ≠ 1) ∧
    play_next_index true ([10] : List Nat) (some 0) [] = some (some 0) ∧
    play_next_index true ([] : List Nat) (some 5) [] = some none :=
  ⟨(C6_shuffle_never_repeats_current ([10, 20, 30] : List Nat) (some 1) [1, 3]).1
      1 0 rfl (by decide) rfl,
   (C6_shuffle_never_repeats_current ([10] : List Nat) (some 0) []).2.1 rfl,
   (C6_shuffle_never_repeats_current ([] : List Nat) (some 5) []).2.2 rfl⟩

/-- Claim C3, counterexample: seek_to can fail although a track is
loaded.  A state whose file reference is set (track 3 is loaded, for
example by a direct play_file call as in the CLI) but whose song
index is unset fails with the no-index error, so failing is not
equivalent to no track being loaded. -/
theorem C3_seek_fails_with_loaded_track :
    (⟨⟨false, false⟩, none, false, some 3, some 100, 7⟩ : MusicPlayer Nat).current_file_path
      = some 3 ∧
    ((⟨⟨false, false⟩, none, false, some 3, some 100, 7⟩ : MusicPlayer Nat).seek_to
        (fun _ => some (some 100)) 5).2 = some SeekErr.noIndex ∧
    ((⟨⟨false, false⟩, none, false, some 3, some 100, 7⟩ : MusicPlayer Nat).seek_to
        (fun _ => some (some 100)) 5).2 ≠ none := by
  decide

/-- Claim C3 as amended (corrected): seek_to fails with one of its two
precondition errors exactly when the loaded file reference is unset or
the current song index is unset, and on such a failure the state is
unchanged; when both are set the new position is recorded immediately
(regardless of what the reload does), and after a fully successful
seek the sink has audio queued and its pause flag is unchanged, so
output is playing exactly when the engine was not paused before. -/
theorem C3_seek_errors_and_preserves_pause {τ : Type} (p : MusicPlayer τ)
    (decode : τ → Option (Option Nat)) (pos : Nat) :
    (((p.seek_to decode pos).2 = some SeekErr.noActiveTrack ∨
        (p.seek_to decode pos).2 = some SeekErr.noIndex) ↔
      (p.current_file_path = none ∨ p.current_song_index = none)) ∧
    ((p.current_file_path = none ∨ p.current_song_index = none) →
      (p.seek_to decode pos).1 = p) ∧
    (p.current_file_path ≠ none → p.current_song_index ≠ none →
      (p.seek_to decode pos).1.play_position = pos) ∧
    ((p.seek_to decode pos).2 = none →
      (p.seek_to decode pos).1.sink.sinkEmpty = false ∧
      (p.seek_to decode pos).1.sink.sinkPaused = p.sink.sinkPaused ∧
      ((!(p.seek_to decode pos).1.sink.sinkPaused &&
        !(p.seek_to decode pos).1.sink.sinkEmpty) = !p.sink.sinkPaused)) := by
  cases hf : p.current_file_path with
  | none =>
    simp [MusicPlayer.seek_to, hf]
  | some path =>
    cases hi : p.current_song_index with
    | none =>
      simp [MusicPlayer.seek_to, hf, hi]
    | some idx =>
      cases hd : decode path with
      | none =>
        simp [MusicPlayer.seek_to, hf, hi, hd]
      | some dur =>
        cases hp : p.sink.sinkPaused <;>
          simp [MusicPlayer.seek_to, hf, hi, hd, hp, SinkState.stop,
            SinkState.appendSource, SinkState.play]

/-- Witness for the amended C3 at a concrete loaded, playing engine:
the seek records position 55 and leaves the sink unpaused with audio
queued. -/
theorem C3_seek_errors_and_preserves_pause_witness :
    ((⟨⟨false, false⟩, some 1, false, some 3, some 100, 7⟩ : MusicPlayer Nat).seek_to
        (fun _ => some (some 100)) 55).1.play_position = 55 ∧
    ((!((⟨⟨false, false⟩, some 1, false, some 3, some 100, 7⟩ : MusicPlayer Nat).seek_to
          (fun _ => some (some 100)) 55).1.sink.sinkPaused &&
      !((⟨⟨false, false⟩, some 1, false, some 3, some 100, 7⟩ : MusicPlayer Nat).seek_to
          (fun _ => some (some 100)) 55).1.sink.sinkEmpty) =
      !(⟨⟨false, false⟩, some 1, false, some 3, some 100, 7⟩ : MusicPlayer Nat).sink.sinkPaused) :=
  ⟨(C3_seek_errors_and_preserves_pause
      (⟨⟨false, false⟩, some 1, false, some 3, some 100, 7⟩ : MusicPlayer Nat)
      (fun _ => some (some 100)) 55).2.2.1 (by decide) (by decide),
   ((C3_seek_errors_and_preserves_pause
      (⟨⟨false, false⟩, some 1, false, some 3, some 100, 7⟩ : MusicPlayer Nat)
      (fun _ => some (some 100)) 55).2.2.2 rfl).2.2⟩

theorem play_next_song_sequential {α : Type} (app : App α) (tape : List Nat)
    (hsh : app.shuffle_mode = false) :
    ∃ a, play_next_song app tape = some a ∧
      a.playlist = app.playlist ∧
      a.shuffle_mode = false ∧
      a.current_playlist_index =
        seqNext app.playlist.length app.current_playlist_index := by
  unfold play_next_song play_next_index seqNext
  rw [if_neg (by simp [hsh])]
  cases hcur : app.current_playlist_index with
  | some c =>
    by_cases hc : c + 1 < app.playlist.length
    · simp only [if_pos hc]
      refine ⟨_, rfl, ?_, ?_, ?_⟩
      · rw [(play_current_song_fields _).1]
      · rw [(play_current_song_fields _).2.2.2]
        exact hsh
      · rw [(play_current_song_fields _).2.1]
    · simp only [if_neg hc]
      exact ⟨_, rfl, rfl, hsh, rfl⟩
  | none =>
    by_cases hc : app.playlist.length ≠ 0
    · simp only [if_pos hc]
      refine ⟨_, rfl, ?_, ?_, ?_⟩
      · rw [(play_current_song_fields _).1]
      · rw [(play_current_song_fields _).2.2.2]
        exact hsh
      · rw [(play_current_song_fields _).2.1]
    · simp only [if_neg hc]
      exact ⟨_, rfl, rfl, hsh, rfl⟩

theorem playNextIter_sequential {α : Type} (app : App α)
    (hsh : app.shuffle_mode = false) :
    ∀ k, ∃ a, playNextIter app k = some a ∧
      a.playlist = app.playlist ∧
      a.shuffle_mode = false ∧
      a.current_playlist_index =
        seqIterFrom app.playlist.length app.current_playlist_index k := by
  intro k
  induction k with
  | zero => exact ⟨app, rfl, rfl, hsh, rfl⟩
  | succ k ih =>
    obtain ⟨a, ha, hpl, hshf, hcur⟩ := ih
    obtain ⟨b, hb, hbpl, hbsh, hbcur⟩ := play_next_song_sequential a [] hshf
    refine ⟨b, ?_, ?_, hbsh, ?_⟩
    · unfold playNextIter
      rw [ha]
      exact hb
    · rw [hbpl, hpl]
    · rw [hbcur, hpl, hcur]
      rfl

theorem seqIterFrom_none_spec (len : Nat) :
    (∀ k, k < len → seqIterFrom len none (k + 1) = some k) ∧
    seqIterFrom len none (len + 1) = none := by
  have hstep : ∀ k, k < len → seqIterFrom len none (k + 1) = some k := by
    intro k
    induction k with
    | zero =>
      intro h0
      show seqNext len none = some 0
      have hne : len ≠ 0 := by omega
      simp [seqNext, hne]
    | succ k ih =>
      intro hk
      show seqNext len (seqIterFrom len none (k + 1)) = some (k + 1)
      rw [ih (by omega)]
      simp [seqNext, hk]
  refine ⟨hstep, ?_⟩
  cases Nat.eq_zero_or_pos len with
  | inl h0 =>
    subst h0
    rfl
  | inr hpos =>
    show seqNext len (seqIterFrom len none len) = none
    have hlast := hstep (len - 1) (by omega)
    have hlen1 : len - 1 + 1 = len := by omega
    rw [hlen1] at hlast
    rw [hlast]
    have hnlt : ¬(len - 1 + 1 < len) := by omega
    simp [seqNext, hnlt]

/-- Claim C7 (confirmed): with shuffle off, play_next_song selects
index 0 from an unset current index on a non-empty playlist, c + 1
when c + 1 < len, and unset otherwise (no wraparound) — seqNext is
exactly that rule; consequently, starting from an unset current index,
the k-th of len successive calls selects index k - 1 (returning each
element once, in order) and the following call selects none. -/
theorem C7_sequential_advance_in_order {α : Type} (pl : List α) :
    (∀ (app : App α) (tape : List Nat), app.shuffle_mode = false →
      ∃ a, play_next_song app tape = some a ∧
        a.playlist = app.playlist ∧
        a.current_playlist_index =
          seqNext app.playlist.length app.current_playlist_index) ∧
    (∀ k, k < pl.length →
      ∃ a, playNextIter (⟨pl, none, none, false, false, none⟩ : App α) (k + 1)
          = some a ∧
        a.current_playlist_index = some k ∧
        currentItem a = pl[k]?) ∧
    (∃ a, playNextIter (⟨pl, none, none, false, false, none⟩ : App α)
        (pl.length + 1) = some a ∧
      a.current_playlist_index = none ∧
      currentItem a = none) := by
  refine ⟨?_, ?_, ?_⟩
  · intro app tape hsh
    obtain ⟨a, ha, hpl, _, hcur⟩ := play_next_song_sequential app tape hsh
    exact ⟨a, ha, hpl, hcur⟩
  · intro k hk
    obtain ⟨a, ha, hpl, _, hcur⟩ :=
      playNextIter_sequential (⟨pl, none, none, false, false, none⟩ : App α)
        rfl (k + 1)
    refine ⟨a, ha, ?_, ?_⟩
    · rw [hcur]
      exact (seqIterFrom_none_spec pl.length).1 k hk
    · have hcur2 : a.current_playlist_index = some k := by
        rw [hcur]
        exact (seqIterFrom_none_spec pl.length).1 k hk
      unfold currentItem
      rw [hcur2, hpl]
  · obtain ⟨a, ha, hpl, _, hcur⟩ :=
      playNextIter_sequential (⟨pl, none, none, false, false, none⟩ : App α)
        rfl (pl.length + 1)
    have hcur2 : a.current_playlist_index = none := by
      rw [hcur]
      exact (seqIterFrom_none_spec pl.length).2
    refine ⟨a, ha, hcur2, ?_⟩
    unfold currentItem
    rw [hcur2]

/-- Witness for C7 on the playlist [5, 6]: the first advance selects
index 0 (element 5) and the third advance, after the list is
exhausted, selects none. -/
theorem C7_sequential_advance_in_order_witness :
    (∃ a, playNextIter (⟨[5, 6], none, none, false, false, none⟩ : App Nat) 1
        = some a ∧
      a.current_playlist_index = some 0 ∧
      currentItem a = ([5, 6] : List Nat)[0]?) ∧
    (∃ a, playNextIter (⟨[5, 6], none, none, false, false, none⟩ : App Nat) 3
        = some a ∧
      a.current_playlist_index = none ∧
      currentItem a = none) :=
  ⟨(C7_sequential_advance_in_order ([5, 6] : List Nat)).2.1 0 (by decide),
   (C7_sequential_advance_in_order ([5, 6] : List Nat)).2.2⟩

/-- Claim C8, counterexample: move-down on the empty playlist does not
return failure leaving the state unchanged; with a (stale) selected
index it panics, because self.playlist.len() - 1 underflows and the
subsequent swap is out of bounds.  The panicking run is the none
result, not a graceful no-op. -/
theorem C8_move_down_empty_panics :
    move_down_in_playlist
        (⟨([] : List Nat), none, some 0, false, false, none⟩ : App Nat) = none := by
  rfl

/-- Claim C8 as amended (corrected): move-up at index 0 and move-down
at the last index of a non-empty playlist return failure and leave the
state unchanged, as does either move when nothing is selected (the
only state in which the empty playlist is reachable through the UI);
move-down on the empty playlist with a selected index panics instead
of failing.  A non-boundary move swaps exactly the two adjacent
elements and updates the current index symmetrically, so currentItem
denotes the same track before and after. -/
theorem C8_move_boundary_and_swap {α : Type} (app : App α) :
    (app.selected_song_index = some 0 → move_up_in_playlist app = app) ∧
    (∀ i, app.selected_song_index = some i → app.playlist.length ≠ 0 →
      i = app.playlist.length - 1 → move_down_in_playlist app = some app) ∧
    (app.selected_song_index = none →
      move_up_in_playlist app = app ∧ move_down_in_playlist app = some app) ∧
    (∀ i, app.selected_song_index = some i → 0 < i →
      i < app.playlist.length →
      ((move_up_in_playlist app).playlist[i]? = app.playlist[i - 1]? ∧
       (move_up_in_playlist app).playlist[i - 1]? = app.playlist[i]? ∧
       (∀ k, k ≠ i → k ≠ i - 1 →
         (move_up_in_playlist app).playlist[k]? = app.playlist[k]?) ∧
       currentItem (move_up_in_playlist app) = currentItem app)) ∧
    (∀ i, app.selected_song_index = some i → i + 1 < app.playlist.length →
      ∃ a, move_down_in_playlist app = some a ∧
        a.playlist[i]? = app.playlist[i + 1]? ∧
        a.playlist[i + 1]? = app.playlist[i]? ∧
        (∀ k, k ≠ i → k ≠ i + 1 → a.playlist[k]? = app.playlist[k]?) ∧
        currentItem a = currentItem app) := by
  refine ⟨?_, ?_, ?_, ?_, ?_⟩
  · intro hsel
    simp only [move_up_in_playlist, hsel]
    rw [if_neg (by simp)]
  · intro i hsel hne hieq
    simp only [move_down_in_playlist, hsel]
    rw [if_neg hne, if_neg (by omega)]
  · intro hsel
    constructor
    · simp only [move_up_in_playlist, hsel]
    · simp only [move_down_in_playlist, hsel]
  · intro i hsel hpos hlt
    have hi1 : i - 1 < app.playlist.length := by omega
    obtain ⟨hswlen, hsw1, hsw2, hsw3⟩ :=
      listSwap_spec app.playlist i (i - 1) hlt hi1
    simp only [move_up_in_playlist, hsel]
    rw [if_pos ⟨hpos, hlt⟩]
    dsimp only
    refine ⟨hsw1, hsw2, hsw3, ?_⟩
    unfold currentItem
    cases hcur : app.current_playlist_index with
    | none => simp
    | some c =>
      dsimp only
      by_cases hci : c = i
      · subst hci
        rw [if_pos rfl]
        dsimp only
        exact hsw2
      · by_cases hci1 : c = i - 1
        · rw [if_neg hci, if_pos hci1]
          dsimp only
          have hc1 : c + 1 = i := by omega
          rw [hc1, hsw1, hci1]
        · rw [if_neg hci, if_neg hci1]
          dsimp only
          exact hsw3 c hci hci1
  · intro i hsel hlt
    have hi0 : i < app.playlist.length := by omega
    obtain ⟨hswlen, hsw1, hsw2, hsw3⟩ :=
      listSwap_spec app.playlist i (i + 1) hi0 hlt
    simp only [move_down_in_playlist, hsel]
    rw [if_neg (by omega : ¬(app.playlist.length = 0)),
      if_pos (by omega : i < app.playlist.length - 1)]
    refine ⟨_, rfl, hsw1, hsw2, hsw3, ?_⟩
    unfold currentItem
    cases hcur : app.current_playlist_index with
    | none => simp
    | some c =>
      dsimp only
      by_cases hci : c = i
      · subst hci
        rw [if_pos rfl]
        dsimp only
        exact hsw2
      · by_cases hci1 : c = i + 1
        · rw [if_neg hci, if_pos hci1]
          dsimp only
          have hc1 : c - 1 = i := by omega
          rw [hc1, hsw1, hci1]
        · rw [if_neg hci, if_neg hci1]
          dsimp only
          exact hsw3 c hci hci1

/-- Witness for the amended C8: on [7, 8], move-up with selection 0
and move-down with selection 1 are no-ops; on [7, 8, 9] with current
index 1 and selection 1, move-down swaps elements 1 and 2 and
currentItem still denotes 8. -/
theorem C8_move_boundary_and_swap_witness :
    move_up_in_playlist (⟨[7, 8], some 0, some 0, false, false, none⟩ : App Nat)
      = (⟨[7, 8], some 0, some 0, false, false, none⟩ : App Nat) ∧
    move_down_in_playlist (⟨[7, 8], some 0, some 1, false, false, none⟩ : App Nat)
      = some (⟨[7, 8], some 0, some 1, false, false, none⟩ : App Nat) ∧
    (∃ a, move_down_in_playlist
        (⟨[7, 8, 9], some 1, some 1, false, false, none⟩ : App Nat) = some a ∧
      a.playlist[1]? = ([7, 8, 9] : List Nat)[2]? ∧
      a.playlist[2]? = ([7, 8, 9] : List Nat)[1]? ∧
      (∀ k, k ≠ 1 → k ≠ 2 → a.playlist[k]? = ([7, 8, 9] : List Nat)[k]?) ∧
      currentItem a =
        currentItem (⟨[7, 8, 9], some 1, some 1, false, false, none⟩ : App Nat)) :=
  ⟨(C8_move_boundary_and_swap
      (⟨[7, 8], some 0, some 0, false, false, none⟩ : App Nat)).1 rfl,
   (C8_move_boundary_and_swap
      (⟨[7, 8], some 0, some 1, false, false, none⟩ : App Nat)).2.1 1 rfl
      (by decide) (by decide),
   (C8_move_boundary_and_swap
      (⟨[7, 8, 9], some 1, some 1, false, false, none⟩ : App Nat)).2.2.2.2 1 rfl
      (by decide)⟩

theorem add_to_playlist_fields {α : Type} (app : App α) (ts : List α) :
    (add_to_playlist app ts).playlist = app.playlist ++ ts ∧
    ((add_to_playlist app ts).current_playlist_index = app.current_playlist_index ∨
      ((add_to_playlist app ts).current_playlist_index = some 0 ∧
        (app.playlist ++ ts).length ≠ 0)) := by
  unfold add_to_playlist
  dsimp only
  split
  · next hcond =>
    constructor
    · rw [(play_current_song_fields _).1]
    · right
      constructor
      · rw [(play_current_song_fields _).2.1]
      · exact hcond.2.2
  · exact ⟨rfl, Or.inl rfl⟩

theorem add_to_playlist_inv {α : Type} (app : App α) (ts : List α)
    (hInv : IndexInv app) : IndexInv (add_to_playlist app ts) := by
  obtain ⟨hpl, hcur⟩ := add_to_playlist_fields app ts
  intro c hc
  rw [hpl]
  rcases hcur with hsame | ⟨h0, hne⟩
  · rw [hsame] at hc
    have := hInv c hc
    rw [List.length_append]
    omega
  · rw [h0] at hc
    injection hc with hc2
    omega

theorem remove_from_playlist_inv {α : Type} (app : App α)
    (hInv : IndexInv app) : IndexInv (remove_from_playlist app) := by
  unfold remove_from_playlist
  cases hsel : app.selected_song_index with
  | none => exact hInv
  | some index =>
    dsimp only
    split
    · next hidx =>
      intro c hc
      dsimp only at hc ⊢
      rw [List.length_eraseIdx_of_lt hidx]
      cases hcur : app.current_playlist_index with
      | none =>
        rw [hcur] at hc
        exact absurd hc (by simp)
      | some c0 =>
        have hc0 := hInv c0 hcur
        rw [hcur] at hc
        dsimp only at hc
        by_cases h1 : c0 = index
        · rw [if_pos h1] at hc
          by_cases h2 : 0 < c0
          · rw [if_pos h2] at hc
            injection hc with hc2
            omega
          · rw [if_neg h2] at hc
            by_cases h3 : 1 < app.playlist.length
            · rw [if_pos h3] at hc
              injection hc with hc2
              omega
            · rw [if_neg h3] at hc
              exact absurd hc (by simp)
        · rw [if_neg h1] at hc
          by_cases h4 : index < c0
          · rw [if_pos h4] at hc
            injection hc with hc2
            omega
          · rw [if_neg h4] at hc
            injection hc with hc2
            omega
    · exact hInv

theorem move_up_in_playlist_inv {α : Type} (app : App α)
    (hInv : IndexInv app) : IndexInv (move_up_in_playlist app) := by
  unfold move_up_in_playlist
  cases hsel : app.selected_song_index with
  | none => exact hInv
  | some index =>
    dsimp only
    split
    · next hcond =>
      obtain ⟨hpos, hlt⟩ := hcond
      intro c hc
      dsimp only at hc ⊢
      rw [(listSwap_spec app.playlist index (index - 1) hlt (by omega)).1]
      cases hcur : app.current_playlist_index with
      | none =>
        rw [hcur] at hc
        exact absurd hc (by simp)
      | some c0 =>
        have hc0 := hInv c0 hcur
        rw [hcur] at hc
        dsimp only at hc
        by_cases h1 : c0 = index
        · rw [if_pos h1] at hc
          injection hc with hc2
          omega
        · rw [if_neg h1] at hc
          by_cases h2 : c0 = index - 1
          · rw [if_pos h2] at hc
            injection hc with hc2
            omega
          · rw [if_neg h2] at hc
            injection hc with hc2
            omega
    · exact hInv

theorem move_down_in_playlist_inv {α : Type} (app app1 : App α)
    (hInv : IndexInv app) (h : move_down_in_playlist app = some app1) :
    IndexInv app1 := by
  unfold move_down_in_playlist at h
  cases hsel : app.selected_song_index with
  | none =>
    rw [hsel] at h
    injection h with h2
    subst h2
    exact hInv
  | some index =>
    rw [hsel] at h
    dsimp only at h
    by_cases h0 : app.playlist.length = 0
    · rw [if_pos h0] at h
      exact absurd h (by simp)
    · rw [if_neg h0] at h
      by_cases hlt : index < app.playlist.length - 1
      · rw [if_pos hlt] at h
        injection h with h2
        subst h2
        intro c hc
        dsimp only at hc ⊢
        rw [(listSwap_spec app.playlist index (index + 1)
          (by omega) (by omega)).1]
        cases hcur : app.current_playlist_index with
        | none =>
          rw [hcur] at hc
          exact absurd hc (by simp)
        | some c0 =>
          have hc0 := hInv c0 hcur
          rw [hcur] at hc
          dsimp only at hc
          by_cases h1 : c0 = index
          · rw [if_pos h1] at hc
            injection hc with hc2
            omega
          · rw [if_neg h1] at hc
            by_cases h2 : c0 = index + 1
            · rw [if_pos h2] at hc
              injection hc with hc2
              omega
            · rw [if_neg h2] at hc
              injection hc with hc2
              omega
      · rw [if_neg hlt] at h
        injection h with h2
        subst h2
        exact hInv

theorem play_next_song_inv {α : Type} (app app1 : App α) (tape : List Nat)
    (h : play_next_song app tape = some app1) : IndexInv app1 := by
  unfold play_next_song at h
  cases hni : play_next_index app.shuffle_mode app.playlist
      app.current_playlist_index tape with
  | none =>
    rw [hni] at h
    exact absurd h (by simp)
  | some next =>
    rw [hni] at h
    cases next with
    | some i =>
      dsimp only at h
      injection h with h2
      subst h2
      intro c hc
      rw [(play_current_song_fields _).2.1] at hc
      rw [(play_current_song_fields _).1]
      dsimp only at hc ⊢
      injection hc with hc2
      subst hc2
      exact play_next_index_in_range _ _ _ _ _ hni
    | none =>
      dsimp only at h
      injection h with h2
      subst h2
      intro c hc
      exact absurd hc (by simp)

theorem click_row_inv {α : Type} (app : App α) (i : Nat)
    (hInv : IndexInv app) : IndexInv (click_row app i) := by
  unfold click_row
  split
  · intro c hc
    exact hInv c hc
  · exact hInv

theorem double_click_row_inv {α : Type} (app : App α) (i : Nat)
    (hInv : IndexInv app) : IndexInv (double_click_row app i) := by
  unfold double_click_row
  split
  · next hi =>
    intro c hc
    dsimp only at hc ⊢
    injection hc with hc2
    omega
  · exact hInv

theorem applyOp_inv {α : Type} (app app1 : App α) (op : Op α)
    (hInv : IndexInv app) (h : applyOp app op = some app1) : IndexInv app1 := by
  cases op with
  | addSongs ts =>
    simp only [applyOp] at h
    injection h with h2
    subst h2
    exact add_to_playlist_inv app ts hInv
  | removeSelected =>
    simp only [applyOp] at h
    injection h with h2
    subst h2
    exact remove_from_playlist_inv app hInv
  | moveUp =>
    simp only [applyOp] at h
    injection h with h2
    subst h2
    exact move_up_in_playlist_inv app hInv
  | moveDown =>
    simp only [applyOp] at h
    exact move_down_in_playlist_inv app app1 hInv h
  | next tape =>
    simp only [applyOp] at h
    exact play_next_song_inv app app1 tape h
  | toggleShuffle =>
    simp only [applyOp] at h
    injection h with h2
    subst h2
    intro c hc
    exact hInv c hc
  | clickRow i =>
    simp only [applyOp] at h
    injection h with h2
    subst h2
    exact click_row_inv app i hInv
  | doubleClickRow i =>
    simp only [applyOp] at h
    injection h with h2
    subst h2
    exact double_click_row_inv app i hInv

theorem runOps_inv {α : Type} (ops : List (Op α)) :
    ∀ a b : App α, IndexInv a → runOps a ops = some b → IndexInv b := by
  induction ops with
  | nil =>
    intro a b hInv h
    unfold runOps at h
    injection h with h2
    subst h2
    exact hInv
  | cons op rest ih =>
    intro a b hInv h
    unfold runOps at h
    cases hop : applyOp a op with
    | none =>
      rw [hop] at h
      exact absurd h (by simp)
    | some a1 =>
      rw [hop] at h
      exact ih a1 b (applyOp_inv a a1 op hInv hop) h

/-- Claim C9 (confirmed): every sequence of navigator operations (add
songs, remove the selection, move up or down, sequential or shuffle
advance, toggling shuffle, selecting or double-click playing a row)
starting from the empty initial state yields a state in which the
current playlist index is unset or a valid in-range offset. -/
theorem C9_navigator_index_invariant {α : Type} (ops : List (Op α)) (app : App α)
    (h : runOps initialApp ops = some app) :
    ∀ c, app.current_playlist_index = some c → c < app.playlist.length :=
  runOps_inv ops initialApp app
    (fun _ hc => absurd hc (by simp [initialApp])) h

/-- Witness for C9: a concrete run that adds three songs, advances,
selects row 0 and removes it; the resulting current index 0 is in
range of the remaining two-element playlist. -/
theorem C9_navigator_index_invariant_witness :
    (0 : Nat) < ((⟨[2, 3], some 0, some 0, false, true, some 2⟩ : App Nat)).playlist.length :=
  C9_navigator_index_invariant
    [Op.addSongs [1, 2, 3], Op.next [], Op.clickRow 0, Op.removeSelected]
    (⟨[2, 3], some 0, some 0, false, true, some 2⟩ : App Nat) rfl 0 rfl

end MusicPlayerSpec
